/-
Verification of the juffi JSON log viewer (src/juffi/juffi.py).

This file shallowly embeds the parts of the program that the checked
properties speak about: the `LogEntry` model (parsing fallback, value
rendering, filter/search predicates, sort keys), the column-type merge of
`JLessModel._combine_types`, the filter/sort pipeline of
`JLessModel.apply_filters`, the cursor reconciliation of
`EntriesWindow.set_data`, `EntriesWindow.goto_line`, and the
`ColumnManagementViewModel`.

Conventions of the embedding:
- Python values decoded from JSON are the inductive `Json` below.  Python
  `str()` is `pyStr`, `json.dumps` is `jsonDumps`, `.lower()` is `pyLower`,
  the `in` substring test is `pyIn`.  Floats do not occur in any of the
  properties below, so `Json` has no float constructor.
- Python dicts appear as association lists in insertion order; lookup is
  `alookup` (first binding wins, as in a dict with unique keys).
- `json.loads` and `_try_parse_datetime` are external to the embedded
  fragment: `mkLogEntry` takes the decode result (`Option Json`, `none`
  for a raised `ValueError`) and the timestamp parser as parameters, and
  `datetime` instants are abstracted to `Nat`.
- Machine integers are `Int`; Python ints are unbounded so no overflow
  modelling is needed.
-/

import Mathlib

namespace Juffi

/-- A decoded JSON value (the result of `json.loads`). -/
inductive Json where
  | null : Json
  | bool (b : Bool) : Json
  | int (n : Int) : Json
  | str (s : String) : Json
  | arr (xs : List Json) : Json
  | obj (kvs : List (String × Json)) : Json

/-- First-binding lookup in an association list (Python dict `.get`). -/
def alookup {α : Type} (kvs : List (String × α)) (k : String) : Option α :=
  match kvs with
  | [] => none
  | kv :: rest => if kv.1 = k then some kv.2 else alookup rest k

mutual
/-- Python `repr` of a decoded JSON value (as used inside containers by
`str`).  String escaping is not modelled; no property below uses a string
needing escapes. -/
def pyRepr : Json → String
  | .null => "None"
  | .bool true => "True"
  | .bool false => "False"
  | .int n => toString n
  | .str s => "'" ++ s ++ "'"
  | .arr xs => "[" ++ String.intercalate ", " (pyReprList xs) ++ "]"
  | .obj kvs => "\x7b" ++ String.intercalate ", " (pyReprPairs kvs) ++ "\x7d"

def pyReprList : List Json → List String
  | [] => []
  | x :: xs => pyRepr x :: pyReprList xs

def pyReprPairs : List (String × Json) → List String
  | [] => []
  | kv :: kvs => ("'" ++ kv.1 ++ "': " ++ pyRepr kv.2) :: pyReprPairs kvs
end

/-- Python `str()` of a decoded JSON value. -/
def pyStr : Json → String
  | .str s => s
  | v => pyRepr v

mutual
/-- `json.dumps` with default separators, as used by `LogEntry.get_value`
for nested dicts/lists.  String escaping is not modelled. -/
def jsonDumps : Json → String
  | .null => "null"
  | .bool true => "true"
  | .bool false => "false"
  | .int n => toString n
  | .str s => "\"" ++ s ++ "\""
  | .arr xs => "[" ++ String.intercalate ", " (jsonDumpsList xs) ++ "]"
  | .obj kvs => "\x7b" ++ String.intercalate ", " (jsonDumpsPairs kvs) ++ "\x7d"

def jsonDumpsList : List Json → List String
  | [] => []
  | x :: xs => jsonDumps x :: jsonDumpsList xs

def jsonDumpsPairs : List (String × Json) → List String
  | [] => []
  | kv :: kvs => ("\"" ++ kv.1 ++ "\": " ++ jsonDumps kv.2) :: jsonDumpsPairs kvs
end

/-- Python `str.lower()` (ASCII case folding suffices for the properties
proved here). -/
def pyLower (s : String) : String := ⟨s.data.map Char.toLower⟩

/-- Python `str.strip()`: drop whitespace from both ends. -/
def pyStrip (s : String) : String :=
  ⟨((s.data.dropWhile Char.isWhitespace).reverse.dropWhile
      Char.isWhitespace).reverse⟩

/-- `needle` is a prefix of `hay` (on characters). -/
def listIsPre : List Char → List Char → Bool
  | [], _ => true
  | _ :: _, [] => false
  | a :: as, b :: bs => a == b && listIsPre as bs

/-- `needle` occurs contiguously in `hay` (on characters). -/
def listIsSub (needle : List Char) : List Char → Bool
  | [] => listIsPre needle []
  | b :: bs => listIsPre needle (b :: bs) || listIsSub needle bs

/-- The Python substring test `needle in hay`. -/
def pyIn (needle hay : String) : Bool := listIsSub needle.data hay.data

/-- The native Python type of a decoded JSON value, as produced by
`LogEntry._types` (`type(value)`). -/
inductive PyType where
  | noneT | boolT | intT | floatT | strT | dictT | listT
deriving Repr, DecidableEq

/-- `type(value)` on a decoded JSON value. -/
def Json.pytype : Json → PyType
  | .null => .noneT
  | .bool _ => .boolT
  | .int _ => .intT
  | .str _ => .strT
  | .arr _ => .listT
  | .obj _ => .dictT

/-- The embedded `LogEntry` (juffi.py:79-197). `data` is the decoded
fields dict, `timestamp` an abstract parsed instant. -/
structure LogEntry where
  raw_line : String
  line_number : Int
  data : List (String × Json)
  timestamp : Option Nat
  level : Option String
  is_valid_json : Bool

/-- The timestamp field names tried by `LogEntry.__init__`, in order. -/
def tsFields : List String := ["timestamp", "time", "@timestamp", "datetime", "date"]

/-- The timestamp extraction loop of `LogEntry.__init__` (juffi.py:100-112):
the first field that is present *and* parses successfully wins; a present
but unparseable field does not stop the search. -/
def extractTimestamp (tryParse : String → Option Nat)
    (data : List (String × Json)) : List String → Option Nat
  | [] => none
  | f :: fs =>
      match alookup data f with
      | none => extractTimestamp tryParse data fs
      | some v =>
          match tryParse (pyStr v) with
          | some t => some t
          | none => extractTimestamp tryParse data fs

/-- `LogEntry.__init__` (juffi.py:82-115).  `decoded` is the result of
`json.loads(raw_line.strip())`, with `none` standing for a raised
`ValueError`; `tryParse` models `_try_parse_datetime`.  `raw` is the
original line before `.strip()`. -/
def mkLogEntry (tryParse : String → Option Nat) (decoded : Option Json)
    (raw : String) (lineNumber : Int) : LogEntry :=
  let stripped := pyStrip raw
  let (data, isValid) :=
    match decoded with
    | some (.obj kvs) => (kvs, true)
    | _ => ([("message", Json.str stripped)], false)
  { raw_line := stripped
    line_number := lineNumber
    data := data
    timestamp := extractTimestamp tryParse data tsFields
    level := (alookup data "level").map pyStr
    is_valid_json := isValid }

/-- `LogEntry.get_value` (juffi.py:132-147): the display string of a field. -/
def LogEntry.get_value (e : LogEntry) (key : String) : String :=
  if key = "#" then toString e.line_number
  else
    match alookup e.data key with
    | none => ""
    | some .null => "null"
    | some (.obj kvs) => jsonDumps (.obj kvs)
    | some (.arr xs) => jsonDumps (.arr xs)
    | some (.bool b) => if b then "true" else "false"
    | some v => pyStr v

/-- `LogEntry.matches_filter` (juffi.py:177-185). -/
def LogEntry.matches_filter (e : LogEntry) (filters : List (String × String)) : Bool :=
  filters.all fun kv =>
    if kv.2 = "" then true
    else pyIn (pyLower kv.2) (pyLower (e.get_value kv.1))

/-- `LogEntry.matches_search` (juffi.py:187-197): case-insensitive match
against `str(value)` of every field value, or against the raw line. -/
def LogEntry.matches_search (e : LogEntry) (searchTerm : String) : Bool :=
  if searchTerm = "" then true
  else
    let searchLower := pyLower searchTerm
    e.data.any (fun kv => pyIn searchLower (pyLower (pyStr kv.2)))
      || pyIn searchLower (pyLower e.raw_line)

/-- A Python sort key produced by `LogEntry.get_sortable_value`:
an int (line number or int field), `-math.inf`, a string, a `datetime`
(abstracted to `Nat`), or a raw non-int value hit by the numeric branch
(`result = value`, unreachable when the merged type is truthful). -/
inductive SortKey where
  | int (n : Int) : SortKey
  | ninf : SortKey
  | str (s : String) : SortKey
  | dt (t : Nat) : SortKey
  | raw (v : Json) : SortKey

/-- `LogEntry.get_sortable_value` (juffi.py:149-175). -/
def LogEntry.get_sortable_value (e : LogEntry) (key : String) (type_ : PyType) : SortKey :=
  if key = "#" then .int e.line_number
  else if key = "timestamp" then
    match e.timestamp with
    | some t => .dt t
    | none => .str ""
  else if type_ = .noneT then .str "null"
  else
    match alookup e.data key with
    | none => if type_ = .intT ∨ type_ = .floatT then .ninf else .str ""
    | some v =>
        if type_ = .intT ∨ type_ = .floatT then
          match v with
          | .int n => .int n
          | v => .raw v
        else .str (pyStr v)

/-- Python `<` between two sort keys.  `none` models a raised `TypeError`
(keys of incompatible runtime classes).  `-math.inf` compares with ints as
a float; `.raw` keys (non-int values reached through the numeric branch)
never occur in a well-typed merge and are treated as incomparable. -/
def SortKey.ltB : SortKey → SortKey → Option Bool
  | .int a, .int b => some (decide (a < b))
  | .int _, .ninf => some false
  | .ninf, .int _ => some true
  | .ninf, .ninf => some false
  | .str a, .str b => some (decide (a < b))
  | .dt a, .dt b => some (decide (a < b))
  | _, _ => none

/-- Two sort keys can be compared by Python `<` without a `TypeError`. -/
def SortKey.comparable (a b : SortKey) : Bool := (a.ltB b).isSome

/-- CPython's `list.sort` raises iff two elements of incompatible classes
are compared; run detection compares every adjacent pair, and for the key
classes here comparability is transitive, so the sort raises iff some
adjacent pair of keys is incomparable. -/
def chainComparable (key : LogEntry → SortKey) : List LogEntry → Bool
  | [] => true
  | [_] => true
  | a :: b :: rest =>
      SortKey.comparable (key a) (key b) && chainComparable key (b :: rest)

/-- Stable insertion for an ascending sort driven by a strict `<` test:
descend past elements strictly below `x`, insert before the first element
not below `x` (so earlier elements stay first among equal keys, as in
CPython's stable sort). -/
def pyInsertAsc (ltB : α → α → Bool) (x : α) : List α → List α
  | [] => [x]
  | y :: ys => if ltB y x then y :: pyInsertAsc ltB x ys else x :: y :: ys

/-- Stable ascending sort (the behaviour of CPython `list.sort()`,
expressed as stable insertion sort). -/
def pySortAsc (ltB : α → α → Bool) : List α → List α
  | [] => []
  | x :: xs => pyInsertAsc ltB x (pySortAsc ltB xs)

/-- `list.sort(key=…, reverse=…)`: CPython implements `reverse=True` by
reversing, sorting ascending (stably), and reversing again. -/
def pyListSort (ltB : α → α → Bool) (reverse : Bool) (l : List α) : List α :=
  if reverse then (pySortAsc ltB l.reverse).reverse else pySortAsc ltB l

/-- Python `<` on strings (lexicographic by code point, which is what the
core `String` order is). -/
def pyStrLt (a b : String) : Bool := decide (a < b)

/-- `JLessModel.apply_filters` (juffi.py:1810-1829).  Returns `.error ()`
when the sort would raise a `TypeError` (incomparable keys).  The
`column_types` dict access `self._column_types[sort_column]` is modelled
with a `.strT` fallback; every use below has the key present. -/
def apply_filters (entries : List LogEntry) (filters : List (String × String))
    (searchTerm : String) (sortColumn : String) (sortReverse : Bool)
    (columnTypes : List (String × PyType)) : Except Unit (List LogEntry) :=
  let fe := entries.filter fun e =>
    e.matches_filter filters && e.matches_search searchTerm
  if sortColumn = "" then .ok fe
  else
    let ty := (alookup columnTypes sortColumn).getD .strT
    let key := fun e : LogEntry => e.get_sortable_value sortColumn ty
    if chainComparable key fe then
      .ok (pyListSort (fun a b => ((key a).ltB (key b)).getD false) sortReverse fe)
    else .error ()

/-- `JLessModel._combine_types` updating one binding of `new_types`
(one iteration of the loop at juffi.py:1804-1808).  `aset` is dict item
assignment on an existing key. -/
def aset (kvs : List (String × α)) (k : String) (v : α) : List (String × α) :=
  match kvs with
  | [] => []
  | kv :: rest => if kv.1 = k then (k, v) :: rest else kv :: aset rest k v

def combine_types_step (cur : List (String × PyType)) (kv : String × PyType) :
    List (String × PyType) :=
  match alookup cur kv.1 with
  | none => cur ++ [kv]
  | some t => if t ≠ kv.2 then aset cur kv.1 .strT else cur

/-- `JLessModel._combine_types` (juffi.py:1803-1808): fold one entry's
field-type dict into the running column-type map. -/
def combine_types (cur : List (String × PyType)) :
    List (String × PyType) → List (String × PyType)
  | [] => cur
  | kv :: rest => combine_types (combine_types_step cur kv) rest

/-- The running type map after a sequence of observed entries' type dicts
(the repeated `_combine_types` calls of `load_entries`). -/
def mergeAll (init : List (String × PyType))
    (observations : List (List (String × PyType))) : List (String × PyType) :=
  observations.foldl combine_types init

/-- The cursor/scroll state owned by `EntriesWindow` that `set_data`
reads and writes (`_state.current_row`, `_scroll_row`, `_old_data_count`,
`_state.sort_reverse`). -/
structure NavState where
  sort_reverse : Bool
  current_row : Int
  scroll_row : Int
  old_data_count : Int

/-- `EntriesWindow.set_data` (juffi.py:544-567): reconcile the cursor with
the freshly recomputed `filtered_entries` of length `filteredLen`. -/
def set_data (s : NavState) (filteredLen : Nat) : NavState :=
  let n : Int := filteredLen
  let row :=
    if s.sort_reverse ∧ s.current_row = 0 then s.current_row
    else if ¬s.sort_reverse ∧ s.current_row = s.old_data_count - 1 then n - 1
    else if s.sort_reverse then s.current_row + (n - s.old_data_count)
    else s.current_row
  let row := if row ≥ n then max 0 (n - 1) else row
  { sort_reverse := s.sort_reverse
    current_row := row
    scroll_row := min s.scroll_row n
    old_data_count := n }

/-- `find_first_index` (juffi.py:451-458), with the running index made
explicit. -/
def findFirstIndexAux (p : α → Bool) : List α → Nat → Option Nat
  | [], _ => none
  | x :: xs, i => if p x then some i else findFirstIndexAux p xs (i + 1)

def find_first_index (l : List α) (p : α → Bool) : Option Nat :=
  findFirstIndexAux p l 0

/-- Python `max(enumerate(l), key=…)`: index of the first element with
maximal key.  `max` updates its best candidate only on a strictly greater
key, so ties keep the earliest index. -/
def pyMaxIdxAux (key : α → Int) : List α → Nat → Nat × Int → Nat
  | [], _, best => best.1
  | x :: xs, i, best =>
      if key x > best.2 then pyMaxIdxAux key xs (i + 1) (i, key x)
      else pyMaxIdxAux key xs (i + 1) best

/-- `none` models the `ValueError` `max` raises on an empty sequence. -/
def pyMaxIdx (key : α → Int) : List α → Option Nat
  | [] => none
  | x :: xs => some (pyMaxIdxAux key xs 1 (0, key x))

/-- The state `goto_line` touches. -/
structure GotoState where
  filtered : List LogEntry
  current_row : Int
  scroll_row : Int

/-- `EntriesWindow.goto_line` (juffi.py:835-857).  `visibleRows` is the
data-window height; `.error ()` models the uncaught `ValueError` of
`max()` when `filtered` is empty and `lineNum` exceeds its length. -/
def goto_line (visibleRows : Nat) (st : GotoState) (lineNum : Int) :
    Except Unit GotoState :=
  if lineNum < 1 then .ok st
  else
    let idxOpt : Except Unit (Option Nat) :=
      if lineNum ≤ (st.filtered.length : Int) then
        .ok (find_first_index st.filtered (fun e => e.line_number == lineNum))
      else
        match pyMaxIdx (fun e => e.line_number) st.filtered with
        | none => .error ()
        | some i => .ok (some i)
    match idxOpt with
    | .error _ => .error ()
    | .ok none => .ok st
    | .ok (some i) =>
        .ok { st with
              current_row := (i : Int)
              scroll_row := max 0 ((i : Int) - (visibleRows / 2 : Nat)) }

/-- `ColumnManagementViewModel` (juffi.py:1091-1124).  `all_columns` is
not read by any of the embedded operations and is omitted. -/
structure CMViewModel where
  focus : String
  available_selection : Int
  selected_selection : Int
  button_selection : Int
  selected_column : Option String
  available_columns : List String
  selected_columns : List String
deriving DecidableEq

/-- Python truthiness of `self.selected_column` (`None` and `""` are
falsy). -/
def optTruthy : Option String → Bool
  | none => false
  | some s => s ≠ ""

/-- `ColumnManagementViewModel.select_column_from_available`
(juffi.py:1235-1248); `column = available_columns[available_selection]`
is written inline. -/
def select_column_from_available (vm : CMViewModel) : CMViewModel :=
  if vm.available_columns = [] then vm
  else if 0 ≤ vm.available_selection ∧
      vm.available_selection < (vm.available_columns.length : Int) then
    if vm.selected_column
        = some (vm.available_columns.getD vm.available_selection.toNat "") then
      { vm with selected_column := none }
    else
      { vm with selected_column := some (vm.available_columns.getD vm.available_selection.toNat "") }
  else vm

/-- `ColumnManagementViewModel.select_column_from_selected`
(juffi.py:1250-1263). -/
def select_column_from_selected (vm : CMViewModel) : CMViewModel :=
  if vm.selected_columns = [] then vm
  else if 0 ≤ vm.selected_selection ∧
      vm.selected_selection < (vm.selected_columns.length : Int) then
    if vm.selected_column
        = some (vm.selected_columns.getD vm.selected_selection.toNat "") then
      { vm with selected_column := none }
    else
      { vm with selected_column := some (vm.selected_columns.getD vm.selected_selection.toNat "") }
  else vm

/-- `ColumnManagementViewModel.get_button_action` (juffi.py:1265-1268);
the out-of-range `IndexError` cannot occur because `move_selection`
clamps `button_selection` to `[0, 2]`. -/
def get_button_action (vm : CMViewModel) : String :=
  ["ok", "cancel", "reset"].getD vm.button_selection.toNat ""

/-- `ColumnManagementViewModel.handle_enter` (juffi.py:1225-1233):
returns the updated view-model and the button action, if any. -/
def handle_enter (vm : CMViewModel) : CMViewModel × Option String :=
  if vm.focus = "available" then (select_column_from_available vm, none)
  else if vm.focus = "selected" then (select_column_from_selected vm, none)
  else if vm.focus = "buttons" then (vm, some (get_button_action vm))
  else (vm, none)

/-- `ColumnManagementViewModel.move_selected_column_to_available`
(juffi.py:1178-1200): move the armed column to the available pane, which
is kept alphabetically sorted (`list.sort()`). -/
def move_selected_column_to_available (vm : CMViewModel) : CMViewModel :=
  if ¬ optTruthy vm.selected_column then vm
  else
    let column := vm.selected_column.getD ""
    if column ∈ vm.selected_columns then
      let sel := vm.selected_columns.erase column
      let avail := pySortAsc pyStrLt (vm.available_columns ++ [column])
      let vm' := { vm with
                   selected_columns := sel
                   available_columns := avail
                   focus := "available"
                   available_selection :=
                     ((find_first_index avail (fun s => s == column)).getD 0 : Nat) }
      if vm'.selected_selection ≥ (sel.length : Int) ∧ sel ≠ [] then
        { vm' with selected_selection := (sel.length : Int) - 1 }
      else vm'
    else vm

/-- `ColumnManagementViewModel.move_selected_column_to_selected`
(juffi.py:1202-1223): move the armed column to the end of the selected
pane. -/
def move_selected_column_to_selected (vm : CMViewModel) : CMViewModel :=
  if ¬ optTruthy vm.selected_column then vm
  else
    let column := vm.selected_column.getD ""
    if column ∈ vm.available_columns then
      let avail := vm.available_columns.erase column
      let sel := vm.selected_columns ++ [column]
      let vm' := { vm with
                   available_columns := avail
                   selected_columns := sel
                   focus := "selected"
                   selected_selection := (sel.length : Int) - 1 }
      if vm'.available_selection ≥ (avail.length : Int) ∧ avail ≠ [] then
        { vm' with available_selection := (avail.length : Int) - 1 }
      else vm'
    else vm

/-- `ColumnManagementViewModel.move_focus_left` (juffi.py:1160-1167). -/
def move_focus_left (vm : CMViewModel) : CMViewModel :=
  if optTruthy vm.selected_column then move_selected_column_to_available vm
  else if vm.focus = "selected" then { vm with focus := "available" }
  else if vm.focus = "buttons" then { vm with focus := "selected" }
  else vm

/-- `ColumnManagementViewModel.move_focus_right` (juffi.py:1169-1176). -/
def move_focus_right (vm : CMViewModel) : CMViewModel :=
  if optTruthy vm.selected_column then move_selected_column_to_selected vm
  else if vm.focus = "available" then { vm with focus := "selected" }
  else if vm.focus = "selected" then { vm with focus := "buttons" }
  else vm

end Juffi

namespace Juffi

example : pyStr .null = "None" := by rfl
example : pyStr (.bool true) = "True" := by rfl
example : pyStr (.obj [("a", .null)]) = "\x7b'a': None\x7d" := by rfl
example : jsonDumps (.obj [("a", .null)]) = "\x7b\"a\": null\x7d" := by rfl
example : pyIn "ell" "hello" = true := by decide
example : pyIn "x" "hello" = false := by decide

/-- A timestamp parser stub under which nothing parses (all concrete
entries below that need no timestamp use it). -/
def tpNone : String → Option Nat := fun _ => none

/-- A timestamp parser stub recognising one fixed instant. -/
def tpOne : String → Option Nat :=
  fun s => if s = "2024-01-01T00:00:00" then some 0 else none

/-- Concrete log line 1: level `warn`. -/
def entWarn1 : LogEntry :=
  mkLogEntry tpNone (some (.obj [("level", .str "warn"), ("message", .str "a")]))
    "\x7b\"level\": \"warn\", \"message\": \"a\"\x7d" 1

/-- Concrete log line 2: level `info`. -/
def entInfo2 : LogEntry :=
  mkLogEntry tpNone (some (.obj [("level", .str "info"), ("message", .str "b")]))
    "\x7b\"level\": \"info\", \"message\": \"b\"\x7d" 2

/-- Concrete log line 3: level `info`. -/
def entInfo3 : LogEntry :=
  mkLogEntry tpNone (some (.obj [("level", .str "info"), ("message", .str "c")]))
    "\x7b\"level\": \"info\", \"message\": \"c\"\x7d" 3

/-- Concrete entry with a parseable timestamp. -/
def entTs : LogEntry :=
  mkLogEntry tpOne (some (.obj [("timestamp", .str "2024-01-01T00:00:00")]))
    "\x7b\"timestamp\": \"2024-01-01T00:00:00\"\x7d" 1

/-- Concrete entry without any timestamp field. -/
def entNoTs : LogEntry :=
  mkLogEntry tpOne (some (.obj [("msg", .str "x")])) "\x7b\"msg\": \"x\"\x7d" 2

/-- The column types merged from the three `level`/`message` lines. -/
def typesLM : List (String × PyType) :=
  [("#", .intT), ("level", .strT), ("message", .strT)]

example : entTs.timestamp = some 0 := by rfl
example : entNoTs.timestamp = none := by rfl
example : entInfo2.matches_filter [("level", "info")] = true := by decide
example : entWarn1.matches_filter [("level", "info")] = false := by decide
example :
    (apply_filters [entWarn1, entInfo2, entInfo3] [("level", "info")] "" "#" false
        typesLM).map (List.map LogEntry.line_number) = .ok [2, 3] := by rfl
example :
    apply_filters [entTs, entNoTs] [] "" "timestamp" true
      [("#", .intT), ("timestamp", .strT)] = .error () := by rfl
example : (set_data ⟨true, 1, 0, 5⟩ 1).current_row = -3 := by decide

/-- C2: growth reconciliation pins the cursor to the growing edge.  For
every prior filtered length `L` and `N ≥ 0` appended entries, `set_data`
keeps `current_row = 0` when `sort_reverse` is set, and moves
`current_row` from the old last index `L - 1` to the new last index when
`sort_reverse` is not set. -/
theorem set_data_pins_growing_edge (L N : Nat) (s : NavState)
    (hL : s.old_data_count = L) :
    (s.sort_reverse = true → s.current_row = 0 →
      (set_data s (L + N)).current_row = 0) ∧
    (s.sort_reverse = false → s.current_row = (L : Int) - 1 →
      (set_data s (L + N)).current_row = ((L + N : Nat) : Int) - 1) := by
  obtain ⟨rev, row, scroll, old⟩ := s
  simp only at hL
  subst hL
  constructor
  · rintro rfl rfl
    simp only [set_data]
    split_ifs <;> simp_all
    omega
  · rintro rfl hrow
    simp only at hrow
    subst hrow
    simp only [set_data]
    split_ifs <;> simp_all

/-- Witness for `set_data_pins_growing_edge`: with 3 prior filtered rows
and 2 appended ones, a reverse view at row 0 stays at row 0, and a
forward view at the old last row 2 lands on the new last row 4. -/
theorem set_data_pins_growing_edge_witness :
    (set_data ⟨true, 0, 0, 3⟩ 5).current_row = 0 ∧
    (set_data ⟨false, 2, 0, 3⟩ 5).current_row = 4 := by
  constructor
  · exact (set_data_pins_growing_edge 3 2 ⟨true, 0, 0, 3⟩ rfl).1 rfl rfl
  · have h := (set_data_pins_growing_edge 3 2 ⟨false, 2, 0, 3⟩ rfl).2 rfl (by decide)
    simpa using h

/-- C3 fails on the code: `set_data` clamps `current_row` only from
above.  With `sort_reverse` set, a cursor at row 1 of 5 filtered rows
(a valid position), and a refilter shrinking the view to 1 row, the
arithmetic shift leaves `current_row = 1 + (1 - 5) = -3`, outside the
claimed interval `[0, 0]`. -/
theorem set_data_breaks_cursor_bounds_on_shrink :
    (set_data ⟨true, 1, 0, 5⟩ 1).current_row = -3 ∧
    ¬ (0 ≤ (set_data ⟨true, 1, 0, 5⟩ 1).current_row ∧
        (set_data ⟨true, 1, 0, 5⟩ 1).current_row ≤ (1 : Int) - 1) := by
  decide

/-- C1 fails on the code: `JLess._apply_filters` is
`apply_filters` followed by the arithmetic `set_data`; no line-preserving
repositioning exists.  With entries on lines 1..3 shown in ascending `#`
order, the cursor on row 1 (line 2), and a `level=info` filter that keeps
lines 2 and 3, the recomputed view is `[2, 3]`, `set_data` keeps
`current_row = 1`, so the cursor now points at line 3 even though the
previously selected line 2 is still present (at row 0). -/
theorem apply_filters_does_not_preserve_selected_line :
    ([entWarn1, entInfo2, entInfo3].map LogEntry.line_number = [1, 2, 3]) ∧
    ((apply_filters [entWarn1, entInfo2, entInfo3] [("level", "info")] "" "#" false
        typesLM).map (List.map LogEntry.line_number) = .ok [2, 3]) ∧
    (set_data ⟨false, 1, 0, 3⟩ 2).current_row = 1 := by
  exact ⟨by rfl, by rfl, by decide⟩

/-- C5 fails on the code: sorting by the `timestamp` column does raise
when entries with and without a parsed timestamp are mixed.  The sort
keys are a `datetime` for `entTs` and `""` for `entNoTs` (the two key
equations below are the part of the claim that is true), and CPython's
`list.sort` comparing them raises `TypeError`, modelled by `.error ()`. -/
theorem timestamp_sort_raises_on_mixed_entries :
    apply_filters [entTs, entNoTs] [] "" "timestamp" true
      [("#", .intT), ("timestamp", .strT)] = .error () ∧
    entTs.get_sortable_value "timestamp" .strT = .dt 0 ∧
    entNoTs.get_sortable_value "timestamp" .strT = .str "" := by
  exact ⟨by rfl, by rfl, by rfl⟩

lemma pyIn_empty_hay (needle : String) (h : needle ≠ "") : pyIn needle "" = false := by
  obtain ⟨data⟩ := needle
  cases data with
  | nil => exact absurd rfl h
  | cons c cs => rfl

lemma pyLower_ne_empty (s : String) (h : s ≠ "") : pyLower s ≠ "" := by
  obtain ⟨data⟩ := s
  cases data with
  | nil => exact absurd rfl h
  | cons c cs =>
    intro hcontra
    exact List.noConfusion (congrArg String.data hcontra)

/-- C6: malformed-line degradation.  `decoded` is the strict JSON decode
result of the (stripped) raw line, `none` standing for a decode failure.
If decoding fails or yields a non-object, the entry's fields are exactly
`{"message": trimmed(rawLine)}` with `is_valid_json = false`; if it
yields an object, the fields are that object with `is_valid_json = true`.
`mkLogEntry` is a total function, so no exception escapes the
constructor. -/
theorem mkLogEntry_malformed_line_degradation (tryParse : String → Option Nat)
    (raw : String) (n : Int) (decoded : Option Json) :
    (∀ kvs, decoded = some (.obj kvs) →
      (mkLogEntry tryParse decoded raw n).data = kvs ∧
      (mkLogEntry tryParse decoded raw n).is_valid_json = true) ∧
    ((decoded = none ∨ ∃ v, decoded = some v ∧ ∀ kvs, v ≠ .obj kvs) →
      (mkLogEntry tryParse decoded raw n).data = [("message", .str (pyStrip raw))] ∧
      (mkLogEntry tryParse decoded raw n).is_valid_json = false) := by
  constructor
  · rintro kvs rfl
    exact ⟨rfl, rfl⟩
  · rintro (rfl | ⟨v, rfl, hv⟩)
    · exact ⟨rfl, rfl⟩
    · cases v with
      | null => exact ⟨rfl, rfl⟩
      | bool b => exact ⟨rfl, rfl⟩
      | int m => exact ⟨rfl, rfl⟩
      | str s => exact ⟨rfl, rfl⟩
      | arr xs => exact ⟨rfl, rfl⟩
      | obj kvs => exact absurd rfl (hv kvs)

/-- Witness for `mkLogEntry_malformed_line_degradation`: an object line
keeps its fields, a failed decode and a non-object decode degrade to a
single `message` field. -/
theorem mkLogEntry_malformed_line_degradation_witness :
    (mkLogEntry tpNone (some (.obj [("a", .int 1)])) "x" 1).data = [("a", .int 1)] ∧
    (mkLogEntry tpNone none "hi" 2).data = [("message", .str "hi")] ∧
    (mkLogEntry tpNone (some (.int 3)) "3" 3).is_valid_json = false := by
  refine ⟨((mkLogEntry_malformed_line_degradation tpNone "x" 1 _).1 _ rfl).1, ?_, ?_⟩
  · have h := ((mkLogEntry_malformed_line_degradation tpNone "hi" 2 none).2
      (Or.inl rfl)).1
    rw [h]
    rfl
  · exact ((mkLogEntry_malformed_line_degradation tpNone "3" 3 (some (.int 3))).2
      (Or.inr ⟨.int 3, rfl, fun kvs h => Json.noConfusion h⟩)).2

/-- C7: the filter predicate is the conjunction over all non-empty
`(column, substring)` pairs of a case-insensitive substring test against
`get_value`; a column absent from an entry renders as `""`, so a
non-empty filter on it always fails. -/
theorem matches_filter_conjunction (e : LogEntry) (F : List (String × String)) :
    (e.matches_filter F = true ↔
      ∀ kv ∈ F, kv.2 ≠ "" →
        pyIn (pyLower kv.2) (pyLower (e.get_value kv.1)) = true) ∧
    (∀ c, c ≠ "#" → alookup e.data c = none → e.get_value c = "") ∧
    (∀ kv ∈ F, kv.1 ≠ "#" → alookup e.data kv.1 = none → kv.2 ≠ "" →
      e.matches_filter F = false) := by
  have hval : ∀ c, c ≠ "#" → alookup e.data c = none → e.get_value c = "" := by
    intro c hc hnone
    simp only [LogEntry.get_value, if_neg hc, hnone]
  refine ⟨?_, hval, ?_⟩
  · simp only [LogEntry.matches_filter, List.all_eq_true]
    constructor
    · intro h kv hkv hne
      have hh := h kv hkv
      rwa [if_neg hne] at hh
    · intro h kv hkv
      by_cases hne : kv.2 = ""
      · rw [if_pos hne]
      · rw [if_neg hne]
        exact h kv hkv hne
  · intro kv hkv hhash hnone hne
    rw [Bool.eq_false_iff]
    intro hall
    rw [LogEntry.matches_filter, List.all_eq_true] at hall
    have h := hall kv hkv
    rw [if_neg hne, hval kv.1 hhash hnone] at h
    have hfalse : pyIn (pyLower kv.2) (pyLower "") = false :=
      pyIn_empty_hay (pyLower kv.2) (pyLower_ne_empty kv.2 hne)
    rw [hfalse] at h
    exact Bool.noConfusion h

/-- Witness for `matches_filter_conjunction`: a non-empty filter on a
missing column rejects the entry, a missing column renders as `""`, and
the conjunction direction holds on a concrete filter set. -/
theorem matches_filter_conjunction_witness :
    entWarn1.matches_filter [("nope", "x")] = false ∧
    entWarn1.get_value "nope" = "" ∧
    entWarn1.matches_filter [("level", "WAR"), ("message", "")] = true := by
  refine ⟨?_, ?_, ?_⟩
  · exact (matches_filter_conjunction entWarn1 [("nope", "x")]).2.2 ("nope", "x")
      (by simp) (by decide) (by rfl) (by decide)
  · exact (matches_filter_conjunction entWarn1 [("nope", "x")]).2.1 "nope"
      (by decide) (by rfl)
  · refine (matches_filter_conjunction entWarn1
      [("level", "WAR"), ("message", "")]).1.mpr ?_
    intro kv hkv hne
    rcases List.mem_cons.mp hkv with h | h
    · subst h; decide
    · rcases List.mem_cons.mp h with h2 | h2
      · subst h2; exact absurd rfl hne
      · exact absurd h2 (List.not_mem_nil _)

/-- Concrete entry whose single field is JSON `null`. -/
def entNull : LogEntry :=
  mkLogEntry tpNone (some (.obj [("a", .null)])) "\x7b\"a\": null\x7d" 1

/-- Concrete entry with a nested object field. -/
def entNest : LogEntry :=
  mkLogEntry tpNone (some (.obj [("o", .obj [("k", .null)])]))
    "\x7b\"o\": \x7b\"k\": null\x7d\x7d" 1

/-- C10: the filter predicate matches against `get_value`'s rendering
(absent → `""`, null → `"null"`, booleans → `"true"`/`"false"`, nested
values → their JSON text) while the search predicate matches against the
Python `str()` rendering (`"None"`, `"True"`, native repr) or the raw
line; on the entry `{"a": null}` and the text `"none"` the two predicates
disagree. -/
theorem filter_and_search_stringify_differently :
    entNull.get_value "a" = "null" ∧
    pyStr Json.null = "None" ∧
    (mkLogEntry tpNone (some (.obj [("b", .bool true)])) "x" 1).get_value "b"
      = "true" ∧
    pyStr (Json.bool true) = "True" ∧
    entNull.get_value "absent" = "" ∧
    entNest.get_value "o" = "\x7b\"k\": null\x7d" ∧
    pyStr (Json.obj [("k", .null)]) = "\x7b'k': None\x7d" ∧
    entNull.matches_filter [("a", "none")] = false ∧
    entNull.matches_search "none" = true := by
  exact ⟨rfl, rfl, rfl, rfl, rfl, rfl, rfl, by decide, by decide⟩

lemma alookup_nil {α : Type} (c : String) :
    alookup ([] : List (String × α)) c = none := rfl

lemma alookup_cons {α : Type} (hd : String × α) (tl : List (String × α))
    (c : String) :
    alookup (hd :: tl) c = if hd.1 = c then some hd.2 else alookup tl c := rfl

lemma aset_cons {α : Type} (hd : String × α) (tl : List (String × α))
    (k : String) (v : α) :
    aset (hd :: tl) k v =
      if hd.1 = k then (k, v) :: tl else hd :: aset tl k v := rfl

lemma alookup_append_single {α : Type} (cur : List (String × α)) (kv : String × α)
    (c : String) :
    alookup (cur ++ [kv]) c =
      match alookup cur c with
      | some v => some v
      | none => if kv.1 = c then some kv.2 else none := by
  induction cur with
  | nil => rfl
  | cons hd tl ih =>
    rw [List.cons_append, alookup_cons, alookup_cons]
    by_cases h : hd.1 = c
    · rw [if_pos h, if_pos h]
    · rw [if_neg h, if_neg h, ih]

lemma alookup_aset {α : Type} (cur : List (String × α)) (k : String) (v : α)
    (c : String) :
    alookup (aset cur k v) c =
      if k = c then (alookup cur c).map (fun _ => v) else alookup cur c := by
  induction cur with
  | nil =>
    show (none : Option α) = if k = c then Option.map _ none else none
    split <;> rfl
  | cons hd tl ih =>
    rw [aset_cons]
    by_cases h1 : hd.1 = k
    · rw [if_pos h1, alookup_cons, alookup_cons]
      by_cases h2 : k = c
      · rw [if_pos h2, if_pos h2, if_pos (h1.trans h2)]
        rfl
      · rw [if_neg h2, if_neg h2, if_neg (fun hh : hd.1 = c => h2 (h1 ▸ hh))]
    · rw [if_neg h1, alookup_cons, alookup_cons]
      by_cases h2 : hd.1 = c
      · have hkc : k ≠ c := fun hc => h1 (h2.trans hc.symm)
        rw [if_pos h2, if_pos h2, if_neg hkc]
      · rw [if_neg h2, if_neg h2, ih]

lemma alookup_combine_types_step (cur : List (String × PyType))
    (kv : String × PyType) (c : String) :
    alookup (combine_types_step cur kv) c =
      if kv.1 = c then
        match alookup cur c with
        | none => some kv.2
        | some t => some (if t ≠ kv.2 then .strT else t)
      else alookup cur c := by
  cases hcur : alookup cur kv.1 with
  | none =>
    have hred : combine_types_step cur kv = cur ++ [kv] := by
      unfold combine_types_step
      rw [hcur]
    rw [hred, alookup_append_single]
    by_cases h : kv.1 = c
    · subst h
      rw [hcur, if_pos rfl]
    · cases hcc : alookup cur c <;> simp [h]
  | some t =>
    have hred : combine_types_step cur kv
        = if t ≠ kv.2 then aset cur kv.1 PyType.strT else cur := by
      unfold combine_types_step
      rw [hcur]
    rw [hred]
    by_cases h : kv.1 = c
    · subst h
      rw [if_pos rfl, hcur]
      by_cases heq : t = kv.2
      · rw [if_neg (by simp [heq]), hcur]
        simp [heq]
      · rw [if_pos (by simp [heq]), alookup_aset, if_pos rfl, hcur]
        simp [heq]
    · rw [if_neg h]
      by_cases heq : t = kv.2
      · rw [if_neg (by simp [heq])]
      · rw [if_pos (by simp [heq]), alookup_aset, if_neg h]

lemma alookup_none_of_not_mem_keys {α : Type} {l : List (String × α)} {c : String}
    (h : c ∉ l.map Prod.fst) : alookup l c = none := by
  induction l with
  | nil => rfl
  | cons hd tl ih =>
    simp only [List.map_cons, List.mem_cons, not_or] at h
    rw [alookup_cons, if_neg (fun hh : hd.1 = c => h.1 hh.symm)]
    exact ih h.2

lemma alookup_combine_types (cur new : List (String × PyType)) (c : String)
    (hnd : (new.map Prod.fst).Nodup) :
    alookup (combine_types cur new) c =
      match alookup new c, alookup cur c with
      | none, r => r
      | some t', none => some t'
      | some t', some t => some (if t ≠ t' then .strT else t) := by
  induction new generalizing cur with
  | nil => rfl
  | cons kv rest ih =>
    simp only [List.map_cons, List.nodup_cons] at hnd
    show alookup (combine_types (combine_types_step cur kv) rest) c = _
    rw [ih _ hnd.2, alookup_combine_types_step, alookup_cons]
    by_cases h : kv.1 = c
    · subst h
      have hrest : alookup rest kv.1 = none :=
        alookup_none_of_not_mem_keys hnd.1
      rw [hrest, if_pos rfl, if_pos rfl]
      cases hcc : alookup cur kv.1 <;> rfl
    · rw [if_neg h, if_neg h]

lemma combine_types_step_absorbs_strT (cur : List (String × PyType))
    (kv : String × PyType) (c : String) (h : alookup cur c = some .strT) :
    alookup (combine_types_step cur kv) c = some .strT := by
  rw [alookup_combine_types_step]
  by_cases hk : kv.1 = c
  · rw [if_pos hk, h]
    simp
  · rw [if_neg hk]
    exact h

lemma combine_types_absorbs_strT (new : List (String × PyType)) :
    ∀ (cur : List (String × PyType)) (c : String),
      alookup cur c = some .strT →
      alookup (combine_types cur new) c = some .strT := by
  induction new with
  | nil => intro cur c h; exact h
  | cons kv rest ih =>
    intro cur c h
    exact ih _ c (combine_types_step_absorbs_strT cur kv c h)

lemma mergeAll_absorbs_strT (obs : List (List (String × PyType))) :
    ∀ (cur : List (String × PyType)) (c : String),
      alookup cur c = some .strT →
      alookup (mergeAll cur obs) c = some .strT := by
  induction obs with
  | nil => intro cur c h; exact h
  | cons o rest ih =>
    intro cur c h
    exact ih _ c (combine_types_absorbs_strT o cur c h)

/-- C8: the column type merge of `_combine_types`: (a) once a column's
merged type is `str` it stays `str` through any further sequence of
observations; (b) the first observation of a column sets its type; (c) a
later observation with a differing native type collapses it to `str`;
(d) under merged type `str`, an entry missing the field gets sort key
`""`, not `-inf`.  Observation dicts have unique keys (Python dicts). -/
theorem combine_types_conflict_is_permanent_string :
    (∀ (cur : List (String × PyType)) (obs : List (List (String × PyType)))
        (c : String), alookup cur c = some .strT →
        alookup (mergeAll cur obs) c = some .strT) ∧
    (∀ (cur new : List (String × PyType)) (c : String) (t' : PyType),
        (new.map Prod.fst).Nodup → alookup cur c = none →
        alookup new c = some t' →
        alookup (combine_types cur new) c = some t') ∧
    (∀ (cur new : List (String × PyType)) (c : String) (t t' : PyType),
        (new.map Prod.fst).Nodup → alookup cur c = some t →
        alookup new c = some t' → t ≠ t' →
        alookup (combine_types cur new) c = some .strT) ∧
    (∀ (e : LogEntry) (c : String), c ≠ "#" → c ≠ "timestamp" →
        alookup e.data c = none →
        e.get_sortable_value c .strT = .str "") := by
  refine ⟨fun cur obs c h => mergeAll_absorbs_strT obs cur c h, ?_, ?_, ?_⟩
  · intro cur new c t' hnd hcur hnew
    rw [alookup_combine_types cur new c hnd, hnew, hcur]
  · intro cur new c t t' hnd hcur hnew hne
    rw [alookup_combine_types cur new c hnd, hnew, hcur]
    simp [hne]
  · intro e c h1 h2 hnone
    simp only [LogEntry.get_sortable_value, if_neg h1, if_neg h2, hnone]
    rfl

/-- Witness for `combine_types_conflict_is_permanent_string`: a `str`
merge survives two further conflicting observations, a first observation
sets `int`, an `int`/`bool` conflict collapses to `str`, and a missing
field under `str` sorts as `""`. -/
theorem combine_types_conflict_is_permanent_string_witness :
    alookup (mergeAll [("x", .strT)] [[("x", .intT)], [("x", .boolT)]]) "x"
      = some .strT ∧
    alookup (combine_types [] [("x", .intT)]) "x" = some .intT ∧
    alookup (combine_types [("x", .intT)] [("x", .boolT)]) "x" = some .strT ∧
    entNoTs.get_sortable_value "level" .strT = .str "" := by
  refine ⟨?_, ?_, ?_, ?_⟩
  · exact combine_types_conflict_is_permanent_string.1 [("x", .strT)]
      [[("x", .intT)], [("x", .boolT)]] "x" rfl
  · exact combine_types_conflict_is_permanent_string.2.1 [] [("x", .intT)] "x"
      .intT (by decide) rfl rfl
  · exact combine_types_conflict_is_permanent_string.2.2.1 [("x", .intT)]
      [("x", .boolT)] "x" .intT .boolT (by decide) rfl rfl (by decide)
  · exact combine_types_conflict_is_permanent_string.2.2.2 entNoTs "level"
      (by decide) (by decide) rfl

lemma findFirstIndexAux_of_first {α : Type} (p : α → Bool) :
    ∀ (l : List α) (k i : Nat) (e : α), l.get? i = some e → p e = true →
      (∀ j e', j < i → l.get? j = some e' → p e' = false) →
      findFirstIndexAux p l k = some (k + i) := by
  intro l
  induction l with
  | nil =>
    intro k i e hget
    simp at hget
  | cons hd tl ih =>
    intro k i e hget hp hmin
    cases i with
    | zero =>
      simp only [List.get?_cons_zero, Option.some.injEq] at hget
      subst hget
      simp [findFirstIndexAux, hp]
    | succ i' =>
      have hhd : p hd = false := hmin 0 hd (Nat.succ_pos _) rfl
      simp only [findFirstIndexAux, hhd, Bool.false_eq_true, if_false]
      rw [List.get?_cons_succ] at hget
      have := ih (k + 1) i' e hget hp (fun j e' hj hg =>
        hmin (j + 1) e' (by omega) (by simpa using hg))
      rw [this]
      congr 1
      omega

lemma findFirstIndexAux_none {α : Type} (p : α → Bool) :
    ∀ (l : List α) (k : Nat), (∀ x ∈ l, p x = false) →
      findFirstIndexAux p l k = none := by
  intro l
  induction l with
  | nil => intro k _; rfl
  | cons hd tl ih =>
    intro k h
    have hhd : p hd = false := h hd (List.mem_cons_self hd tl)
    simp only [findFirstIndexAux, hhd, Bool.false_eq_true, if_false]
    exact ih (k + 1) (fun x hx => h x (List.mem_cons_of_mem hd hx))

lemma find_first_index_of_first {α : Type} (p : α → Bool) (l : List α)
    (i : Nat) (e : α) (hget : l.get? i = some e) (hp : p e = true)
    (hmin : ∀ j e', j < i → l.get? j = some e' → p e' = false) :
    find_first_index l p = some i := by
  have h := findFirstIndexAux_of_first p l 0 i e hget hp hmin
  simpa [find_first_index] using h

lemma find_first_index_none {α : Type} (p : α → Bool) (l : List α)
    (h : ∀ x ∈ l, p x = false) : find_first_index l p = none :=
  findFirstIndexAux_none p l 0 h

lemma pyMaxIdxAux_out {α : Type} (key : α → Int) :
    ∀ (xs : List α) (i bi : Nat) (bk : Int),
      (pyMaxIdxAux key xs i (bi, bk) = bi ∧ ∀ x ∈ xs, key x ≤ bk) ∨
      (∃ j e, xs.get? j = some e ∧ pyMaxIdxAux key xs i (bi, bk) = i + j ∧
        bk ≤ key e ∧ ∀ x ∈ xs, key x ≤ key e) := by
  intro xs
  induction xs with
  | nil =>
    intro i bi bk
    left
    exact ⟨rfl, by simp⟩
  | cons x xs ih =>
    intro i bi bk
    by_cases hx : key x > bk
    · rcases ih (i + 1) i (key x) with ⟨hres, hall⟩ | ⟨j, e, hget, hres, hge, hall⟩
      · right
        refine ⟨0, x, rfl, ?_, le_of_lt hx, ?_⟩
        · simp only [pyMaxIdxAux, if_pos hx]
          rw [hres]
          omega
        · intro y hy
          rcases List.mem_cons.mp hy with rfl | hy
          · exact le_refl _
          · exact (hall y hy).trans (le_refl _)
      · right
        refine ⟨j + 1, e, by simpa using hget, ?_, le_of_lt (lt_of_lt_of_le hx hge), ?_⟩
        · simp only [pyMaxIdxAux, if_pos hx]
          rw [hres]
          omega
        · intro y hy
          rcases List.mem_cons.mp hy with rfl | hy
          · exact hge
          · exact hall y hy
    · push_neg at hx
      rcases ih (i + 1) bi bk with ⟨hres, hall⟩ | ⟨j, e, hget, hres, hge, hall⟩
      · left
        constructor
        · simp only [pyMaxIdxAux, if_neg (not_lt.mpr hx)]
          exact hres
        · intro y hy
          rcases List.mem_cons.mp hy with rfl | hy
          · exact hx
          · exact hall y hy
      · right
        refine ⟨j + 1, e, by simpa using hget, ?_, hge.trans (le_refl _), ?_⟩
        · simp only [pyMaxIdxAux, if_neg (not_lt.mpr hx)]
          rw [hres]
          omega
        · intro y hy
          rcases List.mem_cons.mp hy with rfl | hy
          · exact hx.trans hge
          · exact hall y hy

lemma pyMaxIdx_spec {α : Type} (key : α → Int) (x : α) (xs : List α) :
    ∃ i e, pyMaxIdx key (x :: xs) = some i ∧ (x :: xs).get? i = some e ∧
      ∀ y ∈ x :: xs, key y ≤ key e := by
  have hdef : pyMaxIdx key (x :: xs)
      = some (pyMaxIdxAux key xs 1 (0, key x)) := rfl
  rcases pyMaxIdxAux_out key xs 1 0 (key x) with
    ⟨hres, hall⟩ | ⟨j, e, hget, hres, hge, hall⟩
  · refine ⟨0, x, ?_, rfl, ?_⟩
    · rw [hdef, hres]
    · intro y hy
      rcases List.mem_cons.mp hy with rfl | hy
      · exact le_refl _
      · exact hall y hy
  · refine ⟨1 + j, e, ?_, ?_, ?_⟩
    · rw [hdef, hres]
    · have : (x :: xs).get? (1 + j) = xs.get? j := by
        rw [Nat.add_comm]
        exact List.get?_cons_succ ..
      rw [this, hget]
    · intro y hy
      rcases List.mem_cons.mp hy with rfl | hy
      · exact hge
      · exact hall y hy

/-- C4 amended: `goto_line` branches on `lineNum` versus the *length* of
`filtered_entries`, not on whether the line number is present: for
`n < 1` it is a no-op; for `1 ≤ n ≤ len(filteredEntries)` it selects the
first filtered entry whose `line_number` is exactly `n` and centers it
(`scroll_row = max(0, idx - visibleRows // 2)`), and is a no-op when no
such entry exists; for `n > len(filteredEntries)` on a non-empty view it
selects an entry of maximal `line_number` (earliest on ties) and centers
it. -/
theorem goto_line_branches_on_filtered_length (vis : Nat) (st : GotoState)
    (n : Int) :
    (n < 1 → goto_line vis st n = .ok st) ∧
    (∀ (i : Nat) (e : LogEntry), 1 ≤ n → n ≤ (st.filtered.length : Int) →
      st.filtered.get? i = some e → e.line_number = n →
      (∀ j e', j < i → st.filtered.get? j = some e' → e'.line_number ≠ n) →
      goto_line vis st n
        = .ok ⟨st.filtered, (i : Int), max 0 ((i : Int) - (vis / 2 : Nat))⟩) ∧
    (1 ≤ n → n ≤ (st.filtered.length : Int) →
      (∀ e ∈ st.filtered, e.line_number ≠ n) →
      goto_line vis st n = .ok st) ∧
    ((st.filtered.length : Int) < n → st.filtered ≠ [] →
      ∃ (i : Nat) (e : LogEntry), goto_line vis st n
          = .ok ⟨st.filtered, (i : Int), max 0 ((i : Int) - (vis / 2 : Nat))⟩ ∧
        st.filtered.get? i = some e ∧
        ∀ x ∈ st.filtered, x.line_number ≤ e.line_number) := by
  refine ⟨?_, ?_, ?_, ?_⟩
  · intro h
    unfold goto_line
    rw [if_pos h]
  · intro i e h1 h2 hget hline hmin
    unfold goto_line
    rw [if_neg (by omega), if_pos h2]
    have hfind : find_first_index st.filtered
        (fun e => e.line_number == n) = some i := by
      refine find_first_index_of_first _ _ i e hget (by simp [hline]) ?_
      intro j e' hj hg
      simpa using hmin j e' hj hg
    rw [hfind]
  · intro h1 h2 hnone
    unfold goto_line
    rw [if_neg (by omega), if_pos h2]
    have hfind : find_first_index st.filtered
        (fun e => e.line_number == n) = none := by
      refine find_first_index_none _ _ ?_
      intro x hx
      simpa using hnone x hx
    rw [hfind]
  · intro hgt hne
    cases hft : st.filtered with
    | nil => exact absurd hft hne
    | cons x xs =>
      obtain ⟨i, e, hmax, hget, hall⟩ :=
        pyMaxIdx_spec (fun e : LogEntry => e.line_number) x xs
      refine ⟨i, e, ?_, ?_, ?_⟩
      · unfold goto_line
        rw [if_neg (by omega), if_neg (by omega), hft, hmax]
      · exact hget
      · intro y hy
        exact hall y hy

/-- Counterexample to C4 as stated: the filtered view contains exactly
the entries on lines 10 and 20; `goto_line` with target 10 takes the
`n > len` branch (10 > 2) and selects row 1 (line 20), even though the
entry with line number exactly 10 sits at row 0. -/
def entL10 : LogEntry :=
  mkLogEntry tpNone (some (.obj [("m", .str "p")])) "\x7b\"m\": \"p\"\x7d" 10

def entL20 : LogEntry :=
  mkLogEntry tpNone (some (.obj [("m", .str "q")])) "\x7b\"m\": \"q\"\x7d" 20

theorem goto_line_ignores_present_line_number :
    (goto_line 10 ⟨[entL10, entL20], 0, 0⟩ 10).map GotoState.current_row
      = .ok 1 ∧
    entL10.line_number = 10 ∧
    (GotoState.mk [entL10, entL20] 0 0).filtered.get? 0 = some entL10 := by
  exact ⟨by rfl, by rfl, by rfl⟩

/-- Witness for `goto_line_branches_on_filtered_length`: on the three
lines 1..3 with viewport height 10, `goto_line 2` selects row 1; with
target 0 it is a no-op; with target 99 it selects the maximal line 3 at
row 2. -/
theorem goto_line_branches_on_filtered_length_witness :
    goto_line 10 ⟨[entWarn1, entInfo2, entInfo3], 0, 0⟩ 2
      = .ok ⟨[entWarn1, entInfo2, entInfo3], 1, 0⟩ ∧
    goto_line 10 ⟨[entWarn1, entInfo2, entInfo3], 0, 0⟩ 0
      = .ok ⟨[entWarn1, entInfo2, entInfo3], 0, 0⟩ := by
  constructor
  · have hmin : ∀ (j : Nat) (e' : LogEntry), j < 1 →
        (GotoState.mk [entWarn1, entInfo2, entInfo3] 0 0).filtered.get? j
          = some e' → e'.line_number ≠ 2 := by
      intro j e' hj hg
      interval_cases j
      simp only [List.get?_cons_zero, Option.some.injEq] at hg
      subst hg
      decide
    have h := (goto_line_branches_on_filtered_length 10
      ⟨[entWarn1, entInfo2, entInfo3], 0, 0⟩ 2).2.1 1 entInfo2
      (by decide) (by decide) rfl (by decide) hmin
    rw [h]
    norm_num
  · exact (goto_line_branches_on_filtered_length 10
      ⟨[entWarn1, entInfo2, entInfo3], 0, 0⟩ 0).1 (by decide)

lemma pyInsertAsc_perm {α : Type} (ltB : α → α → Bool) (x : α) (l : List α) :
    (pyInsertAsc ltB x l).Perm (x :: l) := by
  induction l with
  | nil => exact List.Perm.refl _
  | cons y ys ih =>
    simp only [pyInsertAsc]
    split
    · exact (ih.cons y).trans (List.Perm.swap x y ys)
    · exact List.Perm.refl _

lemma pySortAsc_perm {α : Type} (ltB : α → α → Bool) (l : List α) :
    (pySortAsc ltB l).Perm l := by
  induction l with
  | nil => exact List.Perm.refl _
  | cons x xs ih =>
    exact (pyInsertAsc_perm ltB x _).trans (ih.cons x)

lemma pyInsertAsc_pairwise (x : String) (l : List String)
    (h : l.Pairwise (· ≤ ·)) :
    (pyInsertAsc pyStrLt x l).Pairwise (· ≤ ·) := by
  induction l with
  | nil => simp [pyInsertAsc]
  | cons y ys ih =>
    rw [List.pairwise_cons] at h
    obtain ⟨hy, hys⟩ := h
    simp only [pyInsertAsc]
    split_ifs with hcond
    · have hyx : y ≤ x := le_of_lt (by simpa [pyStrLt] using hcond)
      rw [List.pairwise_cons]
      refine ⟨?_, ih hys⟩
      intro z hz
      have hz' := (pyInsertAsc_perm pyStrLt x ys).mem_iff.mp hz
      rcases List.mem_cons.mp hz' with rfl | hz2
      · exact hyx
      · exact hy z hz2
    · have hxy : x ≤ y := le_of_not_lt (by simpa [pyStrLt] using hcond)
      rw [List.pairwise_cons]
      refine ⟨?_, List.pairwise_cons.mpr ⟨hy, hys⟩⟩
      intro z hz
      rcases List.mem_cons.mp hz with rfl | hz2
      · exact hxy
      · exact hxy.trans (hy z hz2)

lemma pySortAsc_pairwise (l : List String) :
    (pySortAsc pyStrLt l).Pairwise (· ≤ ·) := by
  induction l with
  | nil => exact List.Pairwise.nil
  | cons x xs ih => exact pyInsertAsc_pairwise x _ ih

/-- C9 amended: in Column Management, Enter on a pane *arms* the column
under the cursor, and a second Enter on the same armed column *disarms*
it, leaving both panes unchanged — Enter never moves a column.  Moving
happens with Left/Right while a column is armed: Right moves an armed
available column to the *end* of the selected pane; Left moves an armed
selected column to the available pane, which is then sorted
alphabetically.  With focus on the buttons, Enter returns the focused
button's action. -/
theorem handle_enter_arms_and_arrow_moves (vm : CMViewModel) (col : String) :
    (vm.focus = "available" → vm.available_columns ≠ [] →
      0 ≤ vm.available_selection →
      vm.available_selection < (vm.available_columns.length : Int) →
      vm.available_columns.getD vm.available_selection.toNat "" = col →
      (vm.selected_column ≠ some col →
        handle_enter vm = ({ vm with selected_column := some col }, none)) ∧
      (vm.selected_column = some col →
        handle_enter vm = ({ vm with selected_column := none }, none))) ∧
    (vm.focus = "selected" → vm.selected_columns ≠ [] →
      0 ≤ vm.selected_selection →
      vm.selected_selection < (vm.selected_columns.length : Int) →
      vm.selected_columns.getD vm.selected_selection.toNat "" = col →
      (vm.selected_column ≠ some col →
        handle_enter vm = ({ vm with selected_column := some col }, none)) ∧
      (vm.selected_column = some col →
        handle_enter vm = ({ vm with selected_column := none }, none))) ∧
    (vm.focus = "buttons" →
      (handle_enter vm).1 = vm ∧
      (vm.button_selection = 0 → (handle_enter vm).2 = some "ok") ∧
      (vm.button_selection = 1 → (handle_enter vm).2 = some "cancel") ∧
      (vm.button_selection = 2 → (handle_enter vm).2 = some "reset")) ∧
    (vm.selected_column = some col → col ≠ "" → col ∈ vm.available_columns →
      (move_focus_right vm).selected_columns = vm.selected_columns ++ [col] ∧
      (move_focus_right vm).available_columns = vm.available_columns.erase col ∧
      (move_focus_right vm).focus = "selected") ∧
    (vm.selected_column = some col → col ≠ "" → col ∈ vm.selected_columns →
      (move_focus_left vm).selected_columns = vm.selected_columns.erase col ∧
      (move_focus_left vm).available_columns.Perm
        (vm.available_columns ++ [col]) ∧
      (move_focus_left vm).available_columns.Pairwise (· ≤ ·) ∧
      (move_focus_left vm).focus = "available") := by
  have hab : ("available" : String) ≠ "buttons" := by decide
  have hsa : ("selected" : String) ≠ "available" := by decide
  have hba : ("buttons" : String) ≠ "available" := by decide
  have hbs : ("buttons" : String) ≠ "selected" := by decide
  refine ⟨?_, ?_, ?_, ?_, ?_⟩
  · intro hfoc hne h0 hlen hcol
    constructor
    · intro hnotarmed
      unfold handle_enter
      rw [if_pos hfoc]
      unfold select_column_from_available
      rw [if_neg hne, if_pos ⟨h0, hlen⟩, hcol, if_neg hnotarmed]
    · intro harmed
      unfold handle_enter
      rw [if_pos hfoc]
      unfold select_column_from_available
      rw [if_neg hne, if_pos ⟨h0, hlen⟩, hcol, if_pos harmed]
  · intro hfoc hne h0 hlen hcol
    have hfoc' : vm.focus ≠ "available" := by rw [hfoc]; exact hsa
    constructor
    · intro hnotarmed
      unfold handle_enter
      rw [if_neg hfoc', if_pos hfoc]
      unfold select_column_from_selected
      rw [if_neg hne, if_pos ⟨h0, hlen⟩, hcol, if_neg hnotarmed]
    · intro harmed
      unfold handle_enter
      rw [if_neg hfoc', if_pos hfoc]
      unfold select_column_from_selected
      rw [if_neg hne, if_pos ⟨h0, hlen⟩, hcol, if_pos harmed]
  · intro hfoc
    have hfoc1 : vm.focus ≠ "available" := by rw [hfoc]; exact hba
    have hfoc2 : vm.focus ≠ "selected" := by rw [hfoc]; exact hbs
    unfold handle_enter
    rw [if_neg hfoc1, if_neg hfoc2, if_pos hfoc]
    refine ⟨rfl, ?_, ?_, ?_⟩ <;> intro hb <;>
      simp [get_button_action, hb]
  · intro harm hnonempty hmem
    have htr : optTruthy vm.selected_column = true := by
      rw [harm]
      simpa [optTruthy] using hnonempty
    have hgetd : vm.selected_column.getD "" = col := by rw [harm]; rfl
    unfold move_focus_right
    rw [if_pos htr]
    unfold move_selected_column_to_selected
    rw [if_neg (by simp [htr]), hgetd, if_pos hmem]
    dsimp only
    refine ⟨?_, ?_, ?_⟩ <;> split <;> rfl
  · intro harm hnonempty hmem
    have htr : optTruthy vm.selected_column = true := by
      rw [harm]
      simpa [optTruthy] using hnonempty
    have hgetd : vm.selected_column.getD "" = col := by rw [harm]; rfl
    unfold move_focus_left
    rw [if_pos htr]
    unfold move_selected_column_to_available
    rw [if_neg (by simp [htr]), hgetd, if_pos hmem]
    dsimp only
    refine ⟨?_, ?_, ?_, ?_⟩
    · split <;> rfl
    · have hperm : ∀ vm' : CMViewModel,
          vm'.available_columns
            = pySortAsc pyStrLt (vm.available_columns ++ [col]) →
          vm'.available_columns.Perm (vm.available_columns ++ [col]) := by
        intro vm' h
        rw [h]
        exact pySortAsc_perm pyStrLt _
      split <;> exact hperm _ rfl
    · have hpw : ∀ vm' : CMViewModel,
          vm'.available_columns
            = pySortAsc pyStrLt (vm.available_columns ++ [col]) →
          vm'.available_columns.Pairwise (· ≤ ·) := by
        intro vm' h
        rw [h]
        exact pySortAsc_pairwise _
      split <;> exact hpw _ rfl
    · split <;> rfl

/-- Counterexample to C9 as stated: with focus on the available pane and
the single available column `"a"`, pressing Enter arms `"a"` and a
second Enter disarms it; the column is *not* moved to the selected
pane. -/
theorem enter_twice_leaves_column_in_place :
    (handle_enter ⟨"available", 0, 0, 0, none, ["a"], []⟩).1.selected_column
      = some "a" ∧
    (handle_enter (handle_enter ⟨"available", 0, 0, 0, none, ["a"], []⟩).1).1
      = ⟨"available", 0, 0, 0, none, ["a"], []⟩ := by
  exact ⟨by decide, by decide⟩

/-- Witness for `handle_enter_arms_and_arrow_moves` at concrete
view-models: Enter arms `"b"`; Right then moves the armed `"b"` to the
end of the selected pane; Left moves an armed `"a"` to the available
pane which ends up sorted. -/
theorem handle_enter_arms_and_arrow_moves_witness :
    handle_enter ⟨"available", 0, 0, 0, none, ["b"], ["a"]⟩
      = (⟨"available", 0, 0, 0, some "b", ["b"], ["a"]⟩, none) ∧
    (move_focus_right ⟨"available", 0, 0, 0, some "b", ["b"], ["a"]⟩).selected_columns
      = ["a", "b"] ∧
    (move_focus_left ⟨"selected", 0, 0, 0, some "a", ["b"], ["a"]⟩).available_columns.Pairwise
      (· ≤ ·) := by
  refine ⟨?_, ?_, ?_⟩
  · exact ((handle_enter_arms_and_arrow_moves
      ⟨"available", 0, 0, 0, none, ["b"], ["a"]⟩ "b").1 rfl (by decide)
      (by decide) (by decide) rfl).1 (by decide)
  · exact ((handle_enter_arms_and_arrow_moves
      ⟨"available", 0, 0, 0, some "b", ["b"], ["a"]⟩ "b").2.2.2.1 rfl
      (by decide) (by decide)).1
  · exact ((handle_enter_arms_and_arrow_moves
      ⟨"selected", 0, 0, 0, some "a", ["b"], ["a"]⟩ "a").2.2.2.2 rfl
      (by decide) (by decide)).2.2.1

end Juffi
